import Mathlib

/-!
Verification of the SpiderFoot scan-orchestration core against its code.

The definitions below are a shallow embedding of the Python sources:
`spiderfoot/event.py` (SpiderFootEvent), `spiderfoot/threadpool.py`
(SpiderFootThreadPool), and — where the implementation module is not in the
source tree — models written from the specification (`spiderfoot/plugin.py`,
`spiderfoot/target.py`, `spiderfoot/correlation.py`).

Machine integers are modelled as `Nat` with explicit reduction modulo `2^32`
where the source relies on 32-bit wrap-around (the SHA-256 digest used by
`SpiderFootEvent._generateHash`).  Fallible constructors return `Except`.
-/

set_option maxRecDepth 8000

namespace SpiderFootSpec

/-! ## SHA-256 (`hashlib.sha256`), over lists of byte values -/

/-- 32-bit truncation. -/
def mask32 (n : Nat) : Nat := n % 4294967296

/-- 32-bit addition with wrap-around. -/
def add32 (a b : Nat) : Nat := mask32 (a + b)

/-- Right rotation of a 32-bit word by `k` bits. -/
def rotr32 (k x : Nat) : Nat := mask32 ((x >>> k) ||| (x <<< (32 - k)))

/-- Bitwise complement of a 32-bit word. -/
def not32 (x : Nat) : Nat := 4294967295 - (x % 4294967296)

/-- SHA-256 round constants (FIPS 180-4, in decimal). -/
def shaK : List Nat :=
  [1116352408, 1899447441, 3049323471, 3921009573, 961987163,
   1508970993, 2453635748, 2870763221, 3624381080, 310598401,
   607225278, 1426881987, 1925078388, 2162078206, 2614888103,
   3248222580, 3835390401, 4022224774, 264347078, 604807628,
   770255983, 1249150122, 1555081692, 1996064986, 2554220882,
   2821834349, 2952996808, 3210313671, 3336571891, 3584528711,
   113926993, 338241895, 666307205, 773529912, 1294757372,
   1396182291, 1695183700, 1986661051, 2177026350, 2456956037,
   2730485921, 2820302411, 3259730800, 3345764771, 3516065817,
   3600352804, 4094571909, 275423344, 430227734, 506948616,
   659060556, 883997877, 958139571, 1322822218, 1537002063,
   1747873779, 1955562222, 2024104815, 2227730452, 2361852424,
   2428436474, 2756734187, 3204031479, 3329325298]

/-- SHA-256 initial hash state (FIPS 180-4, in decimal). -/
def shaH0 : List Nat :=
  [1779033703, 3144134277, 1013904242, 2773480762,
   1359893119, 2600822924, 528734635, 1541459225]

/-- Big-endian 64-bit encoding of a message bit length. -/
def be64 (n : Nat) : List Nat :=
  [(n >>> 56) % 256, (n >>> 48) % 256, (n >>> 40) % 256, (n >>> 32) % 256,
   (n >>> 24) % 256, (n >>> 16) % 256, (n >>> 8) % 256, n % 256]

/-- SHA-256 message padding: `0x80`, zeros to 56 mod 64, then the bit length. -/
def shaPad (msg : List Nat) : List Nat :=
  let l := msg.length
  let zeros := (119 - l % 64) % 64
  msg ++ (0x80 :: List.replicate zeros 0) ++ be64 (8 * l)

/-- Split a byte list into 64-byte blocks (fuel-driven structural recursion). -/
def toBlocksAux : Nat → List Nat → List (List Nat)
  | 0, _ => []
  | _ + 1, [] => []
  | fuel + 1, b :: rest => (b :: rest).take 64 :: toBlocksAux fuel ((b :: rest).drop 64)

/-- Split a byte list into 64-byte blocks. -/
def toBlocks (l : List Nat) : List (List Nat) := toBlocksAux l.length l

/-- Combine four bytes into one big-endian 32-bit word. -/
def beWord (a b c d : Nat) : Nat := ((a * 256 + b) * 256 + c) * 256 + d

/-- The sixteen initial message-schedule words of a 64-byte block. -/
def blockWords : List Nat → List Nat
  | a :: b :: c :: d :: rest => beWord a b c d :: blockWords rest
  | _ => []

/-- One message-schedule extension word from the current schedule `w`. -/
def scheduleWord (w : List Nat) : Nat :=
  let n := w.length
  let w2 := w.getD (n - 2) 0
  let w7 := w.getD (n - 7) 0
  let w15 := w.getD (n - 15) 0
  let w16 := w.getD (n - 16) 0
  let s0 := (rotr32 7 w15) ^^^ (rotr32 18 w15) ^^^ (w15 >>> 3)
  let s1 := (rotr32 17 w2) ^^^ (rotr32 19 w2) ^^^ (w2 >>> 10)
  mask32 (w16 + s0 + w7 + s1)

/-- Extend the message schedule by `n` further words. -/
def scheduleExtend : Nat → List Nat → List Nat
  | 0, w => w
  | n + 1, w => scheduleExtend n (w ++ [scheduleWord w])

/-- Full 64-word message schedule of one block. -/
def schedule (block : List Nat) : List Nat := scheduleExtend 48 (blockWords block)

/-- One SHA-256 compression round; the state is the eight working variables. -/
def compressStep (st : List Nat) (kw : Nat × Nat) : List Nat :=
  let a := st.getD 0 0
  let b := st.getD 1 0
  let c := st.getD 2 0
  let d := st.getD 3 0
  let e := st.getD 4 0
  let f := st.getD 5 0
  let g := st.getD 6 0
  let h := st.getD 7 0
  let s1 := (rotr32 6 e) ^^^ (rotr32 11 e) ^^^ (rotr32 25 e)
  let ch := (e &&& f) ^^^ ((not32 e) &&& g)
  let t1 := mask32 (h + s1 + ch + kw.1 + kw.2)
  let s0 := (rotr32 2 a) ^^^ (rotr32 13 a) ^^^ (rotr32 22 a)
  let mj := (a &&& b) ^^^ (a &&& c) ^^^ (b &&& c)
  let t2 := mask32 (s0 + mj)
  [add32 t1 t2, a, b, c, add32 d t1, e, f, g]

/-- Process one 64-byte block, updating the eight-word hash state. -/
def compressBlock (h : List Nat) (block : List Nat) : List Nat :=
  let st := (shaK.zip (schedule block)).foldl compressStep h
  (h.zip st).map (fun p => add32 p.1 p.2)

/-- SHA-256 of a byte list, as eight 32-bit words. -/
def sha256 (msg : List Nat) : List Nat :=
  (toBlocks (shaPad msg)).foldl compressBlock shaH0

/-- Hexadecimal digit character for a value below 16. -/
def hexDigit (n : Nat) : Char :=
  if n < 10 then Char.ofNat (48 + n) else Char.ofNat (87 + (n % 16))

/-- Lowercase hexadecimal rendering of one 32-bit word. -/
def wordHex (n : Nat) : List Char :=
  [hexDigit ((n >>> 28) % 16), hexDigit ((n >>> 24) % 16),
   hexDigit ((n >>> 20) % 16), hexDigit ((n >>> 16) % 16),
   hexDigit ((n >>> 12) % 16), hexDigit ((n >>> 8) % 16),
   hexDigit ((n >>> 4) % 16), hexDigit (n % 16)]

/-- `hashlib.sha256(...).hexdigest()`: lowercase hex digest of a byte list. -/
def sha256hex (msg : List Nat) : String :=
  String.mk ((sha256 msg).map wordHex).flatten

/-- UTF-8 encoding of one character, as byte values. -/
def utf8Bytes (c : Char) : List Nat :=
  let n := c.toNat
  if n < 0x80 then [n]
  else if n < 0x800 then
    [0xC0 ||| (n >>> 6), 0x80 ||| (n &&& 0x3F)]
  else if n < 0x10000 then
    [0xE0 ||| (n >>> 12), 0x80 ||| ((n >>> 6) &&& 0x3F), 0x80 ||| (n &&& 0x3F)]
  else
    [0xF0 ||| (n >>> 18), 0x80 ||| ((n >>> 12) &&& 0x3F),
     0x80 ||| ((n >>> 6) &&& 0x3F), 0x80 ||| (n &&& 0x3F)]

/-- `str.encode("utf-8")` of a string, as byte values. -/
def strBytes (s : String) : List Nat := (s.data.map utf8Bytes).flatten

/-- SHA-256 test vector: the empty message. -/
theorem sha256hex_nil :
    sha256hex [] = "e3b0c44298fc1c149afbf4c8996fb92427ae41e4649b934ca495991b7852b855" := by
  rfl

/-- SHA-256 test vector: the three-byte ASCII message abc. -/
theorem sha256hex_abc :
    sha256hex (strBytes "abc")
      = "ba7816bf8f01cfea414140de5dae2223b00361a396177a9cb410ff61f20015ad" := by
  rfl

/-! ## `spiderfoot/event.py` — `SpiderFootEvent`

A nested inductive is used because `__init__` stores the source event object
itself (`self.sourceEvent = sourceEvent`, line 112) in addition to its hash.
`generated` (a `time.time()` timestamp) is an arbitrary `Nat` supplied by the
caller of the embedded constructor.  Python `TypeError`/`ValueError` are the
two variants of `InitError`. -/

inductive InitError where
  | typeError (msg : String)
  | valueError (msg : String)
deriving Repr, DecidableEq

inductive SpiderFootEvent where
  | mk (eventType data module : String)
       (sourceEvent : Option SpiderFootEvent)
       (confidence visibility risk : Int)
       (generated : Nat)
       (tags : List String)
       (sourceEventHash actualSource hash : String)

/-- Field `eventType`. -/
def SpiderFootEvent.eventType : SpiderFootEvent → String
  | .mk t _ _ _ _ _ _ _ _ _ _ _ => t

/-- Field `data`. -/
def SpiderFootEvent.data : SpiderFootEvent → String
  | .mk _ d _ _ _ _ _ _ _ _ _ _ => d

/-- Field `module`. -/
def SpiderFootEvent.module : SpiderFootEvent → String
  | .mk _ _ m _ _ _ _ _ _ _ _ _ => m

/-- Field `sourceEvent` (the retained parent object, line 112). -/
def SpiderFootEvent.sourceEvent : SpiderFootEvent → Option SpiderFootEvent
  | .mk _ _ _ s _ _ _ _ _ _ _ _ => s

/-- Field `confidence`. -/
def SpiderFootEvent.confidence : SpiderFootEvent → Int
  | .mk _ _ _ _ c _ _ _ _ _ _ _ => c

/-- Field `visibility`. -/
def SpiderFootEvent.visibility : SpiderFootEvent → Int
  | .mk _ _ _ _ _ v _ _ _ _ _ _ => v

/-- Field `risk`. -/
def SpiderFootEvent.risk : SpiderFootEvent → Int
  | .mk _ _ _ _ _ _ r _ _ _ _ _ => r

/-- Field `generated`. -/
def SpiderFootEvent.generated : SpiderFootEvent → Nat
  | .mk _ _ _ _ _ _ _ g _ _ _ _ => g

/-- Field `tags`. -/
def SpiderFootEvent.tags : SpiderFootEvent → List String
  | .mk _ _ _ _ _ _ _ _ ts _ _ _ => ts

/-- Field `sourceEventHash`. -/
def SpiderFootEvent.sourceEventHash : SpiderFootEvent → String
  | .mk _ _ _ _ _ _ _ _ _ sh _ _ => sh

/-- Field `actualSource`. -/
def SpiderFootEvent.actualSource : SpiderFootEvent → String
  | .mk _ _ _ _ _ _ _ _ _ _ a _ => a

/-- Field `hash`. -/
def SpiderFootEvent.hash : SpiderFootEvent → String
  | .mk _ _ _ _ _ _ _ _ _ _ _ h => h

/-- `SpiderFootEvent._generateHash`: SHA-256 hex digest of the UTF-8 bytes of
the concatenation `eventType ‖ data ‖ module ‖ sourceEventHash`. -/
def generateHash (eventType data module sourceEventHash : String) : String :=
  sha256hex (strBytes (eventType ++ data ++ module ++ sourceEventHash))

/-- `SpiderFootEvent.add_tag`: append the tag unless already present. -/
def add_tag (tags : List String) (tag : String) : List String :=
  if tag ∈ tags then tags else tags ++ [tag]

/-- The tag chosen by `SpiderFootEvent._add_confidence_tag`. -/
def confidenceTag (confidence : Int) : String :=
  if confidence ≥ 75 then "confidence:high"
  else if confidence ≥ 40 then "confidence:medium"
  else "confidence:low"

/-- The argument-validation prefix of `SpiderFootEvent.__init__`
(lines 65–109), in source order.  The `isinstance` checks are enforced by the
Lean types; the emptiness and 0–100 range checks are modelled exactly. -/
def validateEventArgs (eventType data module : String)
    (confidence visibility risk : Int) : Option InitError :=
  if eventType = "" then some (.valueError "eventType is empty")
  else if data = "" then some (.valueError "data is empty")
  else if module = "" then some (.valueError "module is empty")
  else if ¬(0 ≤ confidence ∧ confidence ≤ 100) then
    some (.valueError "confidence value out of range; expected 0-100")
  else if ¬(0 ≤ visibility ∧ visibility ≤ 100) then
    some (.valueError "visibility value out of range; expected 0-100")
  else if ¬(0 ≤ risk ∧ risk ≤ 100) then
    some (.valueError "risk value out of range; expected 0-100")
  else none

/-- The assignment suffix of `SpiderFootEvent.__init__` (lines 111–143):
store the fields, derive `sourceEventHash`/`actualSource`/inherited tags from
the source event (or from the `sourceEventHash` argument, which defaults to
`"ROOT"` when absent or empty, line 136), compute the hash, then add the
confidence tag. -/
def buildEvent (eventType data module : String)
    (sourceEvent : Option SpiderFootEvent) (confidence visibility risk : Int)
    (sourceEventHash : Option String) (now : Nat) : SpiderFootEvent :=
  match sourceEvent with
  | some se =>
      let seh := se.hash
      let h := generateHash eventType data module seh
      let ts := add_tag se.tags (confidenceTag confidence)
      .mk eventType data module (some se) confidence visibility risk now ts
        seh se.module h
  | none =>
      let seh := match sourceEventHash with
        | some x => if x = "" then "ROOT" else x
        | none => "ROOT"
      let h := generateHash eventType data module seh
      let ts := add_tag [] (confidenceTag confidence)
      .mk eventType data module none confidence visibility risk now ts
        seh module h

/-- `SpiderFootEvent.__init__`: validate, then build. -/
def SpiderFootEvent.construct (eventType data module : String)
    (sourceEvent : Option SpiderFootEvent) (confidence visibility risk : Int)
    (sourceEventHash : Option String) (now : Nat) :
    Except InitError SpiderFootEvent :=
  match validateEventArgs eventType data module confidence visibility risk with
  | some e => .error e
  | none =>
      .ok (buildEvent eventType data module sourceEvent confidence visibility
        risk sourceEventHash now)

/-- `SpiderFootEvent.__eq__`: hash-based comparison. -/
def SpiderFootEvent.beq (a b : SpiderFootEvent) : Bool := a.hash == b.hash

/-- Insertion into a Python `set` of events: membership is decided by the
hash-based `__eq__`/`__hash__`, so an event equal to a present one is not
added again. -/
def setAdd (s : List SpiderFootEvent) (e : SpiderFootEvent) :
    List SpiderFootEvent :=
  if s.any (fun x => x.beq e) then s else s ++ [e]

/-! ## Basic lemmas about the event constructor -/

/-- A successful construction returns exactly the built event. -/
theorem construct_ok_eq {t d m : String} {s : Option SpiderFootEvent}
    {c v r : Int} {sh : Option String} {n : Nat} {e : SpiderFootEvent}
    (h : SpiderFootEvent.construct t d m s c v r sh n = .ok e) :
    e = buildEvent t d m s c v r sh n := by
  unfold SpiderFootEvent.construct at h
  cases hv : validateEventArgs t d m c v r <;> rw [hv] at h <;>
    simp_all

/-- The stored hash of a built event is `generateHash` of its first three
fields and its stored `sourceEventHash`. -/
theorem buildEvent_hash (t d m : String) (s : Option SpiderFootEvent)
    (c v r : Int) (sh : Option String) (n : Nat) :
    (buildEvent t d m s c v r sh n).hash
      = generateHash t d m (buildEvent t d m s c v r sh n).sourceEventHash := by
  cases s <;> rfl

/-- A built event's `eventType`, `data` and `module` fields are the
construction arguments. -/
theorem buildEvent_fields (t d m : String) (s : Option SpiderFootEvent)
    (c v r : Int) (sh : Option String) (n : Nat) :
    (buildEvent t d m s c v r sh n).eventType = t
      ∧ (buildEvent t d m s c v r sh n).data = d
      ∧ (buildEvent t d m s c v r sh n).module = m
      ∧ (buildEvent t d m s c v r sh n).confidence = c
      ∧ (buildEvent t d m s c v r sh n).visibility = v
      ∧ (buildEvent t d m s c v r sh n).risk = r := by
  cases s <;> exact ⟨rfl, rfl, rfl, rfl, rfl, rfl⟩

/-- C1: two events constructed from identical `(eventType, data, module)`
arguments whose stored `sourceEventHash` fields agree have equal derived
hashes, compare equal under the hash-based `__eq__`, and collapse to a single
element when both are inserted into a set — whatever their confidence,
visibility, risk or creation time. -/
theorem event_hash_content_addressed
    (t d m : String) (s₁ s₂ : Option SpiderFootEvent) (c₁ v₁ r₁ c₂ v₂ r₂ : Int)
    (sh₁ sh₂ : Option String) (n₁ n₂ : Nat) (e₁ e₂ : SpiderFootEvent)
    (h₁ : SpiderFootEvent.construct t d m s₁ c₁ v₁ r₁ sh₁ n₁ = .ok e₁)
    (h₂ : SpiderFootEvent.construct t d m s₂ c₂ v₂ r₂ sh₂ n₂ = .ok e₂)
    (hsrc : e₁.sourceEventHash = e₂.sourceEventHash) :
    e₁.hash = e₂.hash ∧ e₁.beq e₂ = true ∧ setAdd (setAdd [] e₁) e₂ = [e₁] := by
  have hh : e₁.hash = e₂.hash := by
    rw [construct_ok_eq h₁, construct_ok_eq h₂] at hsrc ⊢
    rw [buildEvent_hash, buildEvent_hash, hsrc]
  refine ⟨hh, ?_, ?_⟩
  · simp [SpiderFootEvent.beq, hh]
  · simp [setAdd, SpiderFootEvent.beq, hh]

/-- Witness for C1 at concrete inputs: two root events with the same type,
data and module but different confidence, visibility, risk and timestamps. -/
theorem event_hash_content_addressed_witness :
    (buildEvent "TEST" "test data" "test_module" none 100 100 0 none 7).hash
        = (buildEvent "TEST" "test data" "test_module" none 40 10 5 none 99).hash
      ∧ (buildEvent "TEST" "test data" "test_module" none 100 100 0 none 7).beq
          (buildEvent "TEST" "test data" "test_module" none 40 10 5 none 99) = true
      ∧ setAdd (setAdd []
            (buildEvent "TEST" "test data" "test_module" none 100 100 0 none 7))
          (buildEvent "TEST" "test data" "test_module" none 40 10 5 none 99)
        = [buildEvent "TEST" "test data" "test_module" none 100 100 0 none 7] :=
  event_hash_content_addressed "TEST" "test data" "test_module" none none
    100 100 0 40 10 5 none none 7 99 _ _ rfl rfl rfl

/-- C2 counterexample: the constructor also accepts an explicit
`sourceEventHash` argument (line 45 / line 136 of `event.py`); an event
constructed without a source event but with `sourceEventHash="X"` stores
`"X"`, not `"ROOT"`. -/
theorem root_source_hash_counterexample :
    (SpiderFootEvent.construct "TEST" "test data" "test_module" none
        100 100 0 (some "X") 0).map SpiderFootEvent.sourceEventHash = .ok "X"
      ∧ "X" ≠ "ROOT" :=
  ⟨rfl, by decide⟩

/-- C2 (amended): an event constructed without a source event and with no (or
an empty) explicit `sourceEventHash` argument stores `"ROOT"`; an event
constructed with a source event stores that parent's hash. -/
theorem source_event_hash_policy :
    (∀ t d m c v r n e,
        SpiderFootEvent.construct t d m none c v r none n = .ok e →
          e.sourceEventHash = "ROOT")
      ∧ (∀ t d m c v r n e,
          SpiderFootEvent.construct t d m none c v r (some "") n = .ok e →
            e.sourceEventHash = "ROOT")
      ∧ (∀ t d m p c v r sh n e,
          SpiderFootEvent.construct t d m (some p) c v r sh n = .ok e →
            e.sourceEventHash = p.hash) := by
  refine ⟨?_, ?_, ?_⟩ <;> intro t d m
  · intro c v r n e h; rw [construct_ok_eq h]; rfl
  · intro c v r n e h; rw [construct_ok_eq h]; rfl
  · intro p c v r sh n e h; rw [construct_ok_eq h]; cases sh <;> rfl

/-- Witness for C2 (amended) at concrete inputs: a root event with no
explicit source hash, one with an empty source hash, and a child event. -/
theorem source_event_hash_policy_witness :
    (buildEvent "TEST" "test data" "test_module" none 100 100 0 none 0).sourceEventHash
        = "ROOT"
      ∧ (buildEvent "TEST" "test data" "test_module" none 100 100 0 (some "") 0).sourceEventHash
        = "ROOT"
      ∧ (buildEvent "TEST" "test data" "test_module"
            (some (buildEvent "SOURCE" "source data" "source_module" none 100 100 0 none 0))
            100 100 0 none 1).sourceEventHash
        = (buildEvent "SOURCE" "source data" "source_module" none 100 100 0 none 0).hash :=
  ⟨source_event_hash_policy.1 "TEST" "test data" "test_module" 100 100 0 0 _ rfl,
   source_event_hash_policy.2.1 "TEST" "test data" "test_module" 100 100 0 0 _ rfl,
   source_event_hash_policy.2.2 "TEST" "test data" "test_module" _ 100 100 0 none 1 _ rfl⟩

/-- Helper: `validateEventArgs` passes exactly on non-empty strings and
in-range bounded integers. -/
theorem validateEventArgs_none_iff (t d m : String) (c v r : Int) :
    validateEventArgs t d m c v r = none ↔
      (t ≠ "" ∧ d ≠ "" ∧ m ≠ "" ∧ 0 ≤ c ∧ c ≤ 100 ∧ 0 ≤ v ∧ v ≤ 100
        ∧ 0 ≤ r ∧ r ≤ 100) := by
  unfold validateEventArgs
  split_ifs <;> simp_all

/-- C3: construction succeeds exactly when `eventType`, `data` and `module`
are non-empty and `confidence`, `visibility`, `risk` all lie in `[0, 100]`
(the `isinstance` checks of `__init__` are enforced by the embedding's
types); on success the corresponding fields hold the given arguments. -/
theorem construct_validation (t d m : String) (s : Option SpiderFootEvent)
    (c v r : Int) (sh : Option String) (n : Nat) :
    ((∃ e, SpiderFootEvent.construct t d m s c v r sh n = .ok e) ↔
        (t ≠ "" ∧ d ≠ "" ∧ m ≠ "" ∧ 0 ≤ c ∧ c ≤ 100 ∧ 0 ≤ v ∧ v ≤ 100
          ∧ 0 ≤ r ∧ r ≤ 100))
      ∧ ∀ e, SpiderFootEvent.construct t d m s c v r sh n = .ok e →
          e.eventType = t ∧ e.data = d ∧ e.module = m ∧ e.confidence = c
            ∧ e.visibility = v ∧ e.risk = r := by
  constructor
  · rw [← validateEventArgs_none_iff t d m c v r]
    unfold SpiderFootEvent.construct
    cases hv : validateEventArgs t d m c v r <;> simp
  · intro e h
    rw [construct_ok_eq h]
    exact buildEvent_fields t d m s c v r sh n

/-- Witness for C3 at concrete inputs: a valid construction exists and its
fields are as given. -/
theorem construct_validation_witness :
    ((∃ e, SpiderFootEvent.construct "TEST" "test data" "test_module" none
        50 75 25 none 0 = .ok e) ↔
        ("TEST" ≠ "" ∧ "test data" ≠ "" ∧ "test_module" ≠ ""
          ∧ (0:Int) ≤ 50 ∧ (50:Int) ≤ 100 ∧ (0:Int) ≤ 75 ∧ (75:Int) ≤ 100
          ∧ (0:Int) ≤ 25 ∧ (25:Int) ≤ 100))
      ∧ ∀ e, SpiderFootEvent.construct "TEST" "test data" "test_module" none
            50 75 25 none 0 = .ok e →
          e.eventType = "TEST" ∧ e.data = "test data"
            ∧ e.module = "test_module" ∧ e.confidence = 50
            ∧ e.visibility = 75 ∧ e.risk = 25 :=
  construct_validation "TEST" "test data" "test_module" none 50 75 25 none 0

/-- C4 counterexample: a child event retains the parent event object itself
in its `sourceEvent` attribute (`self.sourceEvent = sourceEvent`, line 112),
not only the parent's hash: the stored `sourceEvent` is not `none`, and it
equals the parent event. -/
theorem parent_reference_counterexample :
    ((SpiderFootEvent.construct "SOURCE" "source data" "source_module" none
          100 100 0 none 0).bind
        (fun p => (SpiderFootEvent.construct "TEST" "test data" "test_module"
            (some p) 100 100 0 none 1).map
          (fun e => e.sourceEvent.isNone))) = .ok false
      ∧ ((SpiderFootEvent.construct "SOURCE" "source data" "source_module" none
            100 100 0 none 0).bind
          (fun p => (SpiderFootEvent.construct "TEST" "test data" "test_module"
              (some p) 100 100 0 none 1).map
            (fun e => e.sourceEvent)))
        = (SpiderFootEvent.construct "SOURCE" "source data" "source_module" none
            100 100 0 none 0).map some :=
  ⟨rfl, rfl⟩

/-- C4 (amended): a child event records the parent's hash in
`sourceEventHash` and the parent's module in `actualSource`, and in addition
retains the parent event object itself in its `sourceEvent` attribute. -/
theorem parent_reference_policy (t d m : String) (p : SpiderFootEvent)
    (c v r : Int) (sh : Option String) (n : Nat) (e : SpiderFootEvent)
    (h : SpiderFootEvent.construct t d m (some p) c v r sh n = .ok e) :
    e.sourceEventHash = p.hash ∧ e.actualSource = p.module
      ∧ e.sourceEvent = some p := by
  rw [construct_ok_eq h]
  exact ⟨rfl, rfl, rfl⟩

/-- Witness for C4 (amended) at a concrete parent and child. -/
theorem parent_reference_policy_witness :
    (buildEvent "TEST" "test data" "test_module"
          (some (buildEvent "SOURCE" "source data" "source_module" none 100 100 0 none 0))
          100 100 0 none 1).sourceEventHash
        = (buildEvent "SOURCE" "source data" "source_module" none 100 100 0 none 0).hash
      ∧ (buildEvent "TEST" "test data" "test_module"
            (some (buildEvent "SOURCE" "source data" "source_module" none 100 100 0 none 0))
            100 100 0 none 1).actualSource
        = (buildEvent "SOURCE" "source data" "source_module" none 100 100 0 none 0).module
      ∧ (buildEvent "TEST" "test data" "test_module"
            (some (buildEvent "SOURCE" "source data" "source_module" none 100 100 0 none 0))
            100 100 0 none 1).sourceEvent
        = some (buildEvent "SOURCE" "source data" "source_module" none 100 100 0 none 0) :=
  parent_reference_policy "TEST" "test data" "test_module" _ 100 100 0 none 1 _ rfl

/-- C10: a root event's tag list, immediately after construction, is exactly
one confidence tag determined by the thresholds 75 and 40. -/
theorem root_confidence_tag (t d m : String) (c v r : Int)
    (sh : Option String) (n : Nat) (e : SpiderFootEvent)
    (h : SpiderFootEvent.construct t d m none c v r sh n = .ok e) :
    e.tags.length = 1
      ∧ (c ≥ 75 → e.tags = ["confidence:high"])
      ∧ (40 ≤ c → c < 75 → e.tags = ["confidence:medium"])
      ∧ (c < 40 → e.tags = ["confidence:low"]) := by
  rw [construct_ok_eq h]
  have htags : (buildEvent t d m none c v r sh n).tags = [confidenceTag c] := by
    cases sh <;> rfl
  rw [htags]
  refine ⟨rfl, ?_, ?_, ?_⟩ <;> intros <;> unfold confidenceTag <;>
    split_ifs <;> first | rfl | omega

/-- Witness for C10 at concrete inputs, one per confidence band. -/
theorem root_confidence_tag_witness :
    ((buildEvent "TEST" "test data" "test_module" none 75 100 0 none 0).tags
        = ["confidence:high"])
      ∧ ((buildEvent "TEST" "test data" "test_module" none 40 100 0 none 0).tags
        = ["confidence:medium"])
      ∧ ((buildEvent "TEST" "test data" "test_module" none 39 100 0 none 0).tags
        = ["confidence:low"]) :=
  ⟨(root_confidence_tag "TEST" "test data" "test_module" 75 100 0 none 0 _
      rfl).2.1 (by decide),
   (root_confidence_tag "TEST" "test data" "test_module" 40 100 0 none 0 _
      rfl).2.2.1 (by decide) (by decide),
   (root_confidence_tag "TEST" "test data" "test_module" 39 100 0 none 0 _
      rfl).2.2.2 (by decide)⟩

/-! ## `spiderfoot/threadpool.py` — `SpiderFootThreadPool`

One task group (`self.futures[taskName]`) is modelled as the list of recorded
future ids plus the ghost list of all ids ever submitted to the group.  Task
completion is decided by the environment `env : Nat → Nat → Bool`
(`env k t` — task `t` is done at time `k`); a completed future stays
completed, which is the monotonicity assumption `EnvMonotone`. -/

structure PoolGroup where
  recorded : List Nat
  submitted : List Nat
deriving Repr, DecidableEq

/-- Completion never reverts: once a future is done it stays done. -/
def EnvMonotone (env : Nat → Nat → Bool) : Prop :=
  ∀ i j t, i ≤ j → env i t = true → env j t = true

/-- The clean-up loop of `submit` (lines 67–71): drop the recorded futures
already done at time `i`. -/
def prune (env : Nat → Nat → Bool) (i : Nat) (g : PoolGroup) : List Nat :=
  g.recorded.filter (fun t => !env i t)

/-- The capacity check of `submit` (lines 73–85): when the pruned group is
still at or above `maxThreads` and non-empty, block on
`concurrent.futures.wait` (`FIRST_COMPLETED`) until time `j` and pop the
futures done then. -/
def afterWait (env : Nat → Nat → Bool) (i j maxThreads : Nat)
    (g : PoolGroup) : List Nat :=
  if maxThreads ≤ (prune env i g).length then
    if (prune env i g).isEmpty then prune env i g
    else (prune env i g).filter (fun t => !env j t)
  else prune env i g

/-- `SpiderFootThreadPool.submit` (lines 63–93) restricted to one group:
prune, wait if at capacity, then record the newly submitted future
`newId`. -/
def submitStep (env : Nat → Nat → Bool) (i j maxThreads newId : Nat)
    (g : PoolGroup) : PoolGroup :=
  { recorded := afterWait env i j maxThreads g ++ [newId],
    submitted := g.submitted ++ [newId] }

/-- The postcondition of `concurrent.futures.wait` (`ALL_COMPLETED`) used by
`SpiderFootThreadPool.waitForCompletion` (lines 131–150): at its return time
`k`, every future still recorded for the group is done. -/
def waitForCompletionReturns (env : Nat → Nat → Bool) (k : Nat)
    (g : PoolGroup) : Prop :=
  ∀ t ∈ g.recorded, env k t = true

/-- Group invariant: every future ever submitted is either still recorded or
already done at time `k` (futures are only dropped after completing). -/
def SubmittedDone (env : Nat → Nat → Bool) (k : Nat) (g : PoolGroup) : Prop :=
  ∀ t ∈ g.submitted, t ∈ g.recorded ∨ env k t = true

/-- A filter that drops at least one element is strictly shrinking. -/
theorem length_filter_lt_of_exists_not {α : Type} (l : List α) (p : α → Bool)
    (h : ∃ a ∈ l, p a = false) : (l.filter p).length < l.length := by
  induction l with
  | nil => simp at h
  | cons hd tl ih =>
      rcases h with ⟨a, ha, hpa⟩
      rcases List.mem_cons.mp ha with rfl | hmem
      · simp only [List.filter_cons, hpa, Bool.false_eq_true, if_false,
          List.length_cons]
        exact Nat.lt_succ_of_le (List.length_filter_le p tl)
      · cases hph : p hd
        · simp only [List.filter_cons, hph, Bool.false_eq_true, if_false,
            List.length_cons]
          exact Nat.lt_succ_of_le (List.length_filter_le p tl)
        · simp only [List.filter_cons, hph, if_true, List.length_cons]
          exact Nat.succ_lt_succ (ih ⟨a, hmem, hpa⟩)

/-- After the capacity check, strictly fewer than `maxThreads` futures remain
(provided the group was within its cap, the cap is positive, and a blocking
wait is guaranteed to see at least one completion). -/
theorem afterWait_length_lt (env : Nat → Nat → Bool) (i j maxT : Nat)
    (g : PoolGroup) (hmax : 1 ≤ maxT) (hlen : g.recorded.length ≤ maxT)
    (hwait : maxT ≤ (prune env i g).length → prune env i g ≠ [] →
      ∃ t ∈ prune env i g, env j t = true) :
    (afterWait env i j maxT g).length < maxT := by
  have hple : (prune env i g).length ≤ g.recorded.length :=
    List.length_filter_le _ _
  unfold afterWait
  by_cases hc : maxT ≤ (prune env i g).length
  · have hne : prune env i g ≠ [] := by
      intro hnil
      rw [hnil] at hc
      simp at hc
      omega
    have hemp : (prune env i g).isEmpty = false := by
      cases he : (prune env i g).isEmpty
      · rfl
      · exact absurd (List.isEmpty_iff.mp he) hne
    rcases hwait hc hne with ⟨t, ht, hdone⟩
    have hlt : ((prune env i g).filter (fun t => !env j t)).length
        < (prune env i g).length :=
      length_filter_lt_of_exists_not _ _ ⟨t, ht, by simp [hdone]⟩
    simp only [hc, if_true, hemp, Bool.false_eq_true, if_false]
    omega
  · simp only [hc, if_false]
    omega

/-- The futures kept by the capacity check are recorded futures that were not
yet done at time `i`. -/
theorem mem_afterWait_of_not_done (env : Nat → Nat → Bool) (i j maxT : Nat)
    (g : PoolGroup) (t : Nat) (hrec : t ∈ g.recorded)
    (hi : env i t = false) (hj : env j t = false) :
    t ∈ afterWait env i j maxT g := by
  have hp : t ∈ prune env i g := List.mem_filter.mpr ⟨hrec, by simp [hi]⟩
  unfold afterWait
  split_ifs
  · exact hp
  · exact List.mem_filter.mpr ⟨hp, by simp [hj]⟩
  · exact hp

/-- C5 (amended to a positive cap): with `maxConcurrency ≥ 1`, a group within
its cap stays within its cap across `submit` — pruning plus, at capacity, a
blocking wait that is guaranteed to observe at least one completion
(`FIRST_COMPLETED`) make room before the new future is recorded; `submit`
only ever drops completed futures, so every future ever submitted is either
still recorded or done; and once `waitForCompletion` returns (all recorded
futures done), every future ever submitted to the group has completed. -/
theorem taskpool_bounded_concurrency :
    (∀ (env : Nat → Nat → Bool) (i j maxT newId : Nat) (g : PoolGroup),
        1 ≤ maxT →
        g.recorded.length ≤ maxT →
        (maxT ≤ (prune env i g).length → prune env i g ≠ [] →
          ∃ t ∈ prune env i g, env j t = true) →
        (submitStep env i j maxT newId g).recorded.length ≤ maxT)
      ∧ (∀ (env : Nat → Nat → Bool) (i j maxT newId : Nat) (g : PoolGroup),
          EnvMonotone env → i ≤ j →
          SubmittedDone env i g →
          SubmittedDone env j (submitStep env i j maxT newId g))
      ∧ (∀ (env : Nat → Nat → Bool) (k : Nat) (g : PoolGroup),
          SubmittedDone env k g →
          waitForCompletionReturns env k g →
          ∀ t ∈ g.submitted, env k t = true) := by
  refine ⟨?_, ?_, ?_⟩
  · intro env i j maxT newId g hmax hlen hwait
    have hlt := afterWait_length_lt env i j maxT g hmax hlen hwait
    simp only [submitStep, List.length_append, List.length_singleton]
    omega
  · intro env i j maxT newId g hm hij hinv t ht
    simp only [submitStep] at ht ⊢
    rcases List.mem_append.mp ht with hts | htn
    · rcases hinv t hts with htr | htd
      · by_cases hei : env i t = true
        · exact Or.inr (hm i j t hij hei)
        · by_cases hej : env j t = true
          · exact Or.inr hej
          · refine Or.inl (List.mem_append_left _ ?_)
            exact mem_afterWait_of_not_done env i j maxT g t htr
              (Bool.eq_false_iff.mpr hei) (Bool.eq_false_iff.mpr hej)
      · exact Or.inr (hm i j t hij htd)
    · exact Or.inl (List.mem_append_right _ htn)
  · intro env k g hinv hall t ht
    rcases hinv t ht with htr | htd
    · exact hall t htr
    · exact htd

/-- C5 counterexample to the claim as stated (which quantifies over every
cap): with `maxConcurrency = 0`, a `submit` on an empty group skips the wait
(`if self.futures[taskName]` is false) and records the new future, so the
recorded in-flight count 1 exceeds the cap 0. -/
theorem taskpool_capacity_counterexample :
    (submitStep (fun _ _ => false) 0 0 0 7 ⟨[], []⟩).recorded.length = 1
      ∧ ¬ ((submitStep (fun _ _ => false) 0 0 0 7
            ⟨[], []⟩).recorded.length ≤ 0) := by
  constructor
  · rfl
  · decide

/-- Witness for C5 (amended) at concrete inputs: a group holding two pending
futures with cap 2 admits a third only after one completes; the
submitted-or-done invariant and the drain property hold on concrete
groups. -/
theorem taskpool_bounded_concurrency_witness :
    ((submitStep (fun k t => decide (1 ≤ k) && (t == 1)) 0 1 2 3
        ⟨[1, 2], [1, 2]⟩).recorded.length ≤ 2)
      ∧ SubmittedDone (fun k t => decide (1 ≤ k) && (t == 1)) 1
          (submitStep (fun k t => decide (1 ≤ k) && (t == 1)) 0 1 2 3
            ⟨[1, 2], [1, 2]⟩)
      ∧ (∀ t ∈ ([5] : List Nat), (fun (_ _ : Nat) => true) 9 t = true) := by
  refine ⟨?_, ?_, ?_⟩
  · exact taskpool_bounded_concurrency.1 _ 0 1 2 3 ⟨[1, 2], [1, 2]⟩
      (by decide) (by decide) (fun _ _ => ⟨1, by decide, by decide⟩)
  · refine taskpool_bounded_concurrency.2.1 _ 0 1 2 3 ⟨[1, 2], [1, 2]⟩
      ?_ (by decide) ?_
    · intro a b t hab h
      simp only [Bool.and_eq_true, decide_eq_true_eq, beq_iff_eq] at h ⊢
      exact ⟨le_trans h.1 hab, h.2⟩
    · intro t ht
      exact Or.inl ht
  · exact taskpool_bounded_concurrency.2.2 (fun _ _ => true) 9 ⟨[5], [5]⟩
      (fun t _ => Or.inr rfl) (fun t _ => rfl)

/-! ## Task outcomes and error delivery (`_wrap_fn`, lines 95–115)

A settled future is its task's outcome (`Except`: a raised exception or a
returned value).  `_wrap_fn` logs a failure and re-raises it, so the future
stores exactly the wrapped task's own outcome; the executor's record of
settled futures maps future ids to outcomes, and `Future.result()` re-raises
the stored exception to the awaiter of that future alone. -/

/-- `SpiderFootThreadPool._wrap_fn`: run the task body; a raised exception is
logged and re-raised unchanged, a returned value is passed through. -/
def wrapFn {α : Type} (outcome : Except String α) : Except String α :=
  match outcome with
  | .ok r => .ok r
  | .error e => .error e

/-- Settle one task on the executor: record its future's outcome. -/
def runTask {α : Type} (m : List (Nat × Except String α)) (id : Nat)
    (outcome : Except String α) : List (Nat × Except String α) :=
  m ++ [(id, wrapFn outcome)]

/-- `Future.result()`: deliver the stored outcome of one future — re-raising
a stored exception — to that future's awaiter. -/
def resolve {α : Type} (m : List (Nat × Except String α)) (id : Nat) :
    Option (Except String α) :=
  (m.find? (fun r => r.1 == id)).map (fun r => r.2)

/-- Resolving a freshly settled future yields its recorded outcome. -/
theorem resolve_append_fresh {α : Type} (m : List (Nat × Except String α))
    (id : Nat) (x : Except String α) (h : ∀ r ∈ m, r.1 ≠ id) :
    resolve (m ++ [(id, x)]) id = some x := by
  induction m with
  | nil => simp [resolve]
  | cons hd tl ih =>
      have hhd : (hd.1 == id) = false := by
        simp [h hd (List.mem_cons_self hd tl)]
      simp only [List.cons_append, resolve, List.find?_cons, hhd]
      exact ih fun r hr => h r (List.mem_cons_of_mem hd hr)

/-- Settling one future does not change how any other future resolves. -/
theorem resolve_append_other {α : Type} (m : List (Nat × Except String α))
    (id j : Nat) (x : Except String α) (h : j ≠ id) :
    resolve (m ++ [(id, x)]) j = resolve m j := by
  induction m with
  | nil =>
      have hne : (id == j) = false := by
        simp [Ne.symm h]
      simp [resolve, List.find?, hne]
  | cons hd tl ih =>
      cases hhd : (hd.1 == j)
      · simp only [List.cons_append, resolve, List.find?_cons, hhd] at ih ⊢
        exact ih
      · simp [List.cons_append, resolve, List.find?_cons, hhd]

/-- C8: a failing task's exception is stored in its own future and re-raised
only to that future's awaiter; every other future resolves exactly as
before, and the pool stays usable — a later task settles and resolves to its
own successful result. -/
theorem taskpool_error_isolation {α : Type}
    (m : List (Nat × Except String α)) (id : Nat) (e : String)
    (hfresh : ∀ r ∈ m, r.1 ≠ id) :
    resolve (runTask m id (.error e)) id = some (.error e)
      ∧ (∀ j, j ≠ id → resolve (runTask m id (.error e)) j = resolve m j)
      ∧ (∀ id2 v, id2 ≠ id → (∀ r ∈ m, r.1 ≠ id2) →
          resolve (runTask (runTask m id (.error e)) id2 (.ok v)) id2
            = some (.ok v)) := by
  refine ⟨resolve_append_fresh m id _ hfresh, ?_, ?_⟩
  · intro j hj
    exact resolve_append_other m id j _ hj
  · intro id2 v hne hfresh2
    refine resolve_append_fresh _ id2 _ ?_
    intro r hr
    rcases List.mem_append.mp hr with hr1 | hr2
    · exact hfresh2 r hr1
    · rcases List.mem_singleton.mp hr2 with rfl
      exact fun hcontra => hne (hcontra.symm)

/-- A concrete settled-futures record used by the C8 witness. -/
def sampleFutures : List (Nat × Except String Nat) := [(0, Except.ok 1)]

/-- Witness for C8 at a concrete pool: one already-settled future, a failing
task, and a later successful task. -/
theorem taskpool_error_isolation_witness :
    resolve (runTask sampleFutures 5 (Except.error "Test error")) 5
        = some (Except.error "Test error")
      ∧ (∀ j, j ≠ 5 →
          resolve (runTask sampleFutures 5 (Except.error "Test error")) j
            = resolve sampleFutures j)
      ∧ (∀ id2 v, id2 ≠ 5 → (∀ r ∈ sampleFutures, r.1 ≠ id2) →
          resolve (runTask (runTask sampleFutures 5
              (Except.error "Test error")) id2 (Except.ok v)) id2
            = some (Except.ok v)) :=
  taskpool_error_isolation sampleFutures 5 "Test error" (by decide)

/-! ## Plugin stop-check -/

/-- Modelled from the spec: `spiderfoot/plugin.py` (class `SpiderFootPlugin`)
is not in the source tree — only `test/unit/test_plugin.py` is.  Per §4.3 of
the spec and the behaviour pinned by `test_check_for_stop`,
`checkForStop` returns true when `errorState` is set, when the internal
`_stopScanning` flag is set, or when a live read of the persisted scan
record reports status `"ABORT-REQUESTED"`; when the record cannot be read
(`scanInstanceGet` returns `None`) or reports any other status (e.g.
`"RUNNING"`), it returns false.  The live read is modelled as the
`scanStatus` argument. -/
def checkForStop (errorState stopScanning : Bool)
    (scanStatus : Option String) : Bool :=
  if errorState then true
  else if stopScanning then true
  else
    match scanStatus with
    | some status => status == "ABORT-REQUESTED"
    | none => false

/-- C6: `checkForStop` is true exactly when `errorState` is set, the internal
stop flag is set, or the persisted scan status reads `"ABORT-REQUESTED"`;
in particular it is false when the status reads `"RUNNING"` or the scan
record cannot be read. -/
theorem checkForStop_spec :
    (∀ (e s : Bool) (st : Option String),
        checkForStop e s st = true ↔
          (e = true ∨ s = true ∨ st = some "ABORT-REQUESTED"))
      ∧ checkForStop false false (some "RUNNING") = false
      ∧ checkForStop false false none = false := by
  refine ⟨?_, rfl, rfl⟩
  intro e s st
  cases e <;> cases s <;> cases st <;>
    simp [checkForStop]

/-! ## Target scope matching -/

/-- Modelled from the spec: `spiderfoot/target.py` (class `SpiderFootTarget`)
is not in the source tree — only `test/unit/test_target.py` is.  A target is
its type, its value, and the alias registry of `{value, type}` pairs
(§3 of the spec). -/
structure SpiderFootTarget where
  targetType : String
  targetValue : String
  targetAliases : List (String × String)
deriving Repr, DecidableEq

/-- Hostname-like target types (spec §4.2). -/
def hostnameTypes : List String := ["INTERNET_NAME", "DOMAIN_NAME"]

/-- Target types for which scope matching always succeeds (spec §4.2). -/
def alwaysMatchTypes : List String :=
  ["HUMAN_NAME", "USERNAME", "BITCOIN_ADDRESS", "PHONE_NUMBER"]

/-- String suffix test, on the character lists. -/
def strEndsWith (v suffix : String) : Bool := suffix.data.isSuffixOf v.data

/-- Modelled from the spec: `getNames` — the primary value plus the alias
values of hostname-like type. -/
def SpiderFootTarget.names (t : SpiderFootTarget) : List String :=
  t.targetValue
    :: (t.targetAliases.filter (fun a => hostnameTypes.contains a.2)).map
      (fun a => a.1)

/-- Modelled from the spec: `SpiderFootTarget.matches` (§4.2).  Empty input
never matches; hostname-like targets match exactly against the value or any
alias, as a subdomain when `includeChildren` (the value ends with `"." +
target`), and as a parent domain when `includeParents` (the target ends with
`"." + value`); opaque types always match; remaining types match exactly
against the value or an alias (the CIDR-containment rule for declared
subnets is not modelled — no claim here depends on it). -/
def SpiderFootTarget.matches (t : SpiderFootTarget) (value : String)
    (includeParents includeChildren : Bool) : Bool :=
  if value = "" then false
  else if hostnameTypes.contains t.targetType then
    t.names.any (fun n =>
      value == n
        || (includeChildren && strEndsWith value ("." ++ n))
        || (includeParents && strEndsWith n ("." ++ value)))
  else if alwaysMatchTypes.contains t.targetType then true
  else (t.targetValue :: t.targetAliases.map (fun a => a.1)).contains value

/-- C7: `Target("example.com","INTERNET_NAME")` matches `"sub.example.com"`
with `includeChildren` and rejects it without; in general a hostname-like
target matches a non-exact value as a child exactly when the value ends with
`"."` followed by the target value or one of its hostname aliases. -/
theorem target_child_matching :
    (∀ p : Bool,
        (SpiderFootTarget.mk "INTERNET_NAME" "example.com" []).matches
          "sub.example.com" p true = true)
      ∧ (∀ p : Bool,
          (SpiderFootTarget.mk "INTERNET_NAME" "example.com" []).matches
            "sub.example.com" p false = false)
      ∧ (∀ (t : SpiderFootTarget) (v : String),
          hostnameTypes.contains t.targetType = true →
          (¬ ∃ n ∈ t.names, v = n) →
          (t.matches v false true = true ↔
            (v ≠ "" ∧ ∃ n ∈ t.names, strEndsWith v ("." ++ n) = true))) := by
  refine ⟨?_, ?_, ?_⟩
  · intro p; cases p <;> decide
  · intro p; cases p <;> decide
  · intro t v hht hnex
    by_cases hv : v = ""
    · subst hv
      simp [SpiderFootTarget.matches]
    · simp only [SpiderFootTarget.matches, if_neg hv, hht, if_true,
        List.any_eq_true]
      constructor
      · rintro ⟨n, hn, hf⟩
        refine ⟨hv, n, hn, ?_⟩
        simp only [Bool.false_and, Bool.or_false, Bool.true_and,
          Bool.or_eq_true, beq_iff_eq] at hf
        rcases hf with heq | hend
        · exact absurd ⟨n, hn, heq⟩ hnex
        · exact hend
      · rintro ⟨-, n, hn, hend⟩
        refine ⟨n, hn, ?_⟩
        simp [hend]

/-- Witness for C7 at concrete inputs, including the general clause applied
to `Target("example.com","INTERNET_NAME")` and the non-exact value
`"sub.example.com"`. -/
theorem target_child_matching_witness :
    ((SpiderFootTarget.mk "INTERNET_NAME" "example.com" []).matches
        "sub.example.com" false true = true)
      ∧ ((SpiderFootTarget.mk "INTERNET_NAME" "example.com" []).matches
          "sub.example.com" false false = false)
      ∧ ((SpiderFootTarget.mk "INTERNET_NAME" "example.com" []).matches
            "sub.example.com" false true = true ↔
          ("sub.example.com" ≠ ""
            ∧ ∃ n ∈ (SpiderFootTarget.mk "INTERNET_NAME" "example.com" []).names,
                strEndsWith "sub.example.com" ("." ++ n) = true)) :=
  ⟨target_child_matching.1 false,
   target_child_matching.2.1 false,
   target_child_matching.2.2 (SpiderFootTarget.mk "INTERNET_NAME" "example.com" [])
     "sub.example.com" (by decide) (by decide)⟩

/-! ## Correlation engine -/

/-- Modelled from the spec: `spiderfoot/correlation.py` (class
`SpiderFootCorrelator`) is not in the source tree — only
`test/unit/test_correlation.py` is.  Per §4.6 of the spec and
`test_run_correlations_with_error`, `run_correlations` processes each parsed
rule by loading its events (`_load_event_data`) and evaluating its logic
(`_run_rule_evaluation`); an exception from either step is caught and
logged and that rule alone contributes nothing.  `stepRule` is the loop
body; rule, loaded-event and result types are abstract. -/
def stepRule {ρ ε γ : Type} (load : ρ → Except String ε)
    (evalRule : ρ → ε → Except String (List γ)) (acc : List γ) (rule : ρ) :
    List γ :=
  match load rule with
  | .error _ => acc
  | .ok evs =>
      match evalRule rule evs with
      | .error _ => acc
      | .ok res => acc ++ res

/-- Modelled from the spec: `run_correlations` — fold `stepRule` over the
rule list, starting from no results. -/
def run_correlations {ρ ε γ : Type} (rules : List ρ)
    (load : ρ → Except String ε)
    (evalRule : ρ → ε → Except String (List γ)) : List γ :=
  rules.foldl (stepRule load evalRule) []

/-- The contribution of a single rule: its evaluation results, or nothing
when loading or evaluating it fails. -/
def ruleResults {ρ ε γ : Type} (load : ρ → Except String ε)
    (evalRule : ρ → ε → Except String (List γ)) (rule : ρ) : List γ :=
  match load rule with
  | .error _ => []
  | .ok evs =>
      match evalRule rule evs with
      | .error _ => []
      | .ok res => res

/-- A rule fails when loading its events fails, or evaluating it on the
loaded events fails. -/
def ruleFails {ρ ε γ : Type} (load : ρ → Except String ε)
    (evalRule : ρ → ε → Except String (List γ)) (rule : ρ) : Prop :=
  match load rule with
  | .error _ => True
  | .ok evs => ∃ msg, evalRule rule evs = .error msg

/-- The loop body appends exactly the rule's contribution. -/
theorem stepRule_eq {ρ ε γ : Type} (load : ρ → Except String ε)
    (evalRule : ρ → ε → Except String (List γ)) (acc : List γ) (rule : ρ) :
    stepRule load evalRule acc rule = acc ++ ruleResults load evalRule rule := by
  cases hl : load rule with
  | error e => simp [stepRule, ruleResults, hl]
  | ok evs =>
      cases he : evalRule rule evs with
      | error m => simp [stepRule, ruleResults, hl, he]
      | ok res => simp [stepRule, ruleResults, hl, he]

/-- A failing rule contributes nothing. -/
theorem ruleResults_of_fails {ρ ε γ : Type} (load : ρ → Except String ε)
    (evalRule : ρ → ε → Except String (List γ)) (rule : ρ)
    (h : ruleFails load evalRule rule) :
    ruleResults load evalRule rule = [] := by
  unfold ruleFails at h
  cases hl : load rule with
  | error e => simp [ruleResults, hl]
  | ok evs =>
      rw [hl] at h
      rcases h with ⟨msg, hmsg⟩
      simp [ruleResults, hl, hmsg]

/-- `run_correlations` is the concatenation of the per-rule
contributions. -/
theorem run_correlations_eq_flatten {ρ ε γ : Type} (rules : List ρ)
    (load : ρ → Except String ε)
    (evalRule : ρ → ε → Except String (List γ)) :
    run_correlations rules load evalRule
      = (rules.map (ruleResults load evalRule)).flatten := by
  suffices h : ∀ acc : List γ,
      rules.foldl (stepRule load evalRule) acc
        = acc ++ (rules.map (ruleResults load evalRule)).flatten by
    simpa [run_correlations] using h []
  induction rules with
  | nil => intro acc; simp
  | cons r rs ih =>
      intro acc
      simp only [List.foldl_cons, List.map_cons, List.flatten_cons]
      rw [stepRule_eq, ih, List.append_assoc]

/-- C9: a rule whose event loading or evaluation fails is skipped — it
contributes nothing, and the remaining rules produce exactly what they would
produce without it; when every rule fails, `run_correlations` returns the
empty result set (in this embedding it is a total function, so a caught
per-rule failure can never escape as an exception). -/
theorem correlation_rule_isolation :
    (∀ (ρ ε γ : Type) (rules : List ρ) (load : ρ → Except String ε)
        (evalRule : ρ → ε → Except String (List γ)),
        run_correlations rules load evalRule
          = (rules.map (ruleResults load evalRule)).flatten)
      ∧ (∀ (ρ ε γ : Type) (pre post : List ρ) (bad : ρ)
          (load : ρ → Except String ε)
          (evalRule : ρ → ε → Except String (List γ)),
          ruleFails load evalRule bad →
          run_correlations (pre ++ bad :: post) load evalRule
            = run_correlations (pre ++ post) load evalRule)
      ∧ (∀ (ρ ε γ : Type) (rules : List ρ) (load : ρ → Except String ε)
          (evalRule : ρ → ε → Except String (List γ)),
          (∀ r ∈ rules, ruleFails load evalRule r) →
          run_correlations rules load evalRule = []) := by
  refine ⟨?_, ?_, ?_⟩
  · intro ρ ε γ rules load evalRule
    exact run_correlations_eq_flatten rules load evalRule
  · intro ρ ε γ pre post bad load evalRule hbad
    rw [run_correlations_eq_flatten, run_correlations_eq_flatten]
    simp [ruleResults_of_fails load evalRule bad hbad]
  · intro ρ ε γ rules load evalRule hall
    rw [run_correlations_eq_flatten]
    have hmap : rules.map (ruleResults load evalRule)
        = rules.map (fun _ => []) := by
      apply List.map_congr_left
      intro r hr
      exact ruleResults_of_fails load evalRule r (hall r hr)
    rw [hmap]
    simp

/-- Witness for C9 at concrete inputs: rule 2 hits a database error and is
skipped while rules 1 and 3 still evaluate; a load function that always
raises yields the empty result set. -/
theorem correlation_rule_isolation_witness :
    run_correlations ([1] ++ 2 :: [3])
        (fun r : Nat =>
          if r = 2 then (Except.error "Test database error" : Except String Nat)
          else Except.ok r)
        (fun r _ => Except.ok [r])
      = run_correlations ([1] ++ [3])
        (fun r : Nat =>
          if r = 2 then (Except.error "Test database error" : Except String Nat)
          else Except.ok r)
        (fun r _ => Except.ok [r])
      ∧ run_correlations [1, 2]
          (fun _ : Nat => (Except.error "db down" : Except String Nat))
          (fun r _ => (Except.ok [r] : Except String (List Nat)))
        = [] :=
  ⟨correlation_rule_isolation.2.1 Nat Nat Nat [1] [3] 2 _ _ (by simp [ruleFails]),
   correlation_rule_isolation.2.2 Nat Nat Nat [1, 2] _ _
     (fun r _ => trivial)⟩

end SpiderFootSpec
